import Mathlib

/-!
# Regolith filters: remote composite filters and Python filters

A shallow embedding of `regolith/filter_remote.go` and `regolith/filter_python.go`.

* Go strings are Lean strings; the path functions of the Go standard library work on
  their character lists.
* `map[string]interface{}` is an association list of dynamically typed Go values.
* Go `error` values are terms recording which error helper built them.
* Code that touches the outside world (file system, lock state, subprocesses, the
  network) takes the outside world as an explicit state `W`, reads and changes it only
  through the collaborators of `Lib W`, and records its log lines, lock queries, file-system
  checks and removals, manifest reads, nested runs, lookups, fetches and subprocesses in an
  event trace.
-/

namespace Regolith

/-! ## Go values -/

/-- Dynamically typed Go value held by an `interface{}`: the dynamic types that a decoded
configuration object can hold, plus `int`, which the type assertions of the source ask for. -/
inductive GoValue where
  | nil
  | bool (b : Bool)
  | int (n : Int)
  | float64 (bits : Nat)
  | string (s : String)
  | slice (xs : List GoValue)
  | map (kvs : List (String × GoValue))

/-- The whole number held by the `float64` with IEEE 754 bit pattern `bits`, for whole
numbers of magnitude below `2 ^ 53` other than negative zero; `none` for any other value.
These are the `float64` values that `json.Unmarshal` gives for JSON numbers such as `2`. -/
def float64Whole (bits : Nat) : Option Int :=
  let exponent := (bits / 2 ^ 52) % 2048
  let mantissa := 2 ^ 52 + bits % 2 ^ 52
  if bits = 0 then some 0
  else if 2 ^ 64 ≤ bits then none
  else if 1023 ≤ exponent ∧ exponent ≤ 1075 then
    if mantissa % 2 ^ (1075 - exponent) = 0 then
      if bits < 2 ^ 63 then some (Int.ofNat (mantissa / 2 ^ (1075 - exponent)))
      else some (-(Int.ofNat (mantissa / 2 ^ (1075 - exponent))))
    else none
  else none

/-- Go `map[string]interface{}` as an association list; the first binding of a key counts. -/
abbrev GoMap := List (String × GoValue)

/-- Go `v, ok := obj[key]`: `none` stands for `ok = false`. -/
def GoMap.index (obj : GoMap) (key : String) : Option GoValue :=
  match obj with
  | [] => none
  | (k, v) :: rest => if k = key then some v else GoMap.index rest key

/-- Go `obj[key]` read as a single value: a missing key gives the nil interface. -/
def GoMap.at (obj : GoMap) (key : String) : GoValue :=
  match obj.index key with
  | some v => v
  | none => GoValue.nil

/-- Go `s, ok := v.(string)`: `none` stands for `ok = false`. -/
def GoValue.assertString : GoValue → Option String
  | GoValue.string s => some s
  | _ => none

/-- Go `n, ok := v.(int)`: `none` stands for `ok = false`. -/
def GoValue.assertInt : GoValue → Option Int
  | GoValue.int n => some n
  | _ => none

/-! ## Errors -/

/-- Go `error` values as built by the error helpers of the package (`WrapError`,
`WrapErrorf`, `WrappedError`, `WrappedErrorf`, `PassError`), kept as uninterpreted terms:
the helper that was called, its message or format string, and its arguments rendered as
text. Errors coming from collaborators are `external`. -/
inductive Error where
  | external (text : String)
  | WrappedError (text : String)
  | WrappedErrorf (format : String) (args : List String)
  | WrapError (cause : Option Error) (text : String)
  | WrapErrorf (cause : Option Error) (format : String) (args : List String)
  | PassError (cause : Error)

/-! ## Go standard library: `strings`, `path`, `path/filepath` (Unix), `strconv` -/

namespace Chars

/-- Go `strings.Join(elems, "/")` on character lists. -/
def joinSlash : List (List Char) → List Char
  | [] => []
  | [a] => a
  | a :: b :: rest => a ++ '/' :: joinSlash (b :: rest)

/-- Prepends a character to the first element of a list of path elements. -/
def consHead (c : Char) : List (List Char) → List (List Char)
  | [] => [[c]]
  | h :: t => (c :: h) :: t

/-- The path elements of a path: the pieces between its slashes (possibly empty). -/
def splitSlash : List Char → List (List Char)
  | [] => [[]]
  | c :: cs => if c = '/' then [] :: splitSlash cs else consHead c (splitSlash cs)

/-- One step of the loop of Go `Clean`, on the path element that starts at the read
position. `stack` holds the elements written so far, the last one first. An empty element
and `.` write nothing; `..` removes the last written element when there is one that is not
itself `..` (`out.w > dotdot`), is written when the path is not rooted, and is dropped at
the root; any other element is written. -/
def cleanStep (rooted : Bool) (stack : List (List Char)) (elem : List Char) :
    List (List Char) :=
  if elem = [] then stack
  else if elem = ['.'] then stack
  else if elem = ['.', '.'] then
    match stack with
    | top :: rest =>
      if top ≠ ['.', '.'] then rest
      else if rooted then stack else elem :: stack
    | [] => if rooted then stack else elem :: stack
  else elem :: stack

/-- The output buffer of Go `Clean` for the written elements: a leading slash for a rooted
path, the elements separated by single slashes, and `.` when nothing was written. -/
def cleanRender (rooted : Bool) (stack : List (List Char)) : List Char :=
  if rooted then '/' :: joinSlash stack.reverse
  else if stack = [] then ['.']
  else joinSlash stack.reverse

/-- Go `path.Clean` / Unix `filepath.Clean`: the shortest equivalent path. -/
def Clean (path : List Char) : List Char :=
  if path = [] then ['.']
  else
    let rooted := decide (path.head? = some '/')
    cleanRender rooted ((splitSlash path).foldl (cleanStep rooted) [])

/-- Go `path.Join` / Unix `filepath.Join`: leading empty elements are skipped, the rest is
joined with slashes and cleaned; the result is empty when every element is empty. -/
def Join : List (List Char) → List Char
  | [] => []
  | e :: rest => if e = [] then Join rest else Clean (joinSlash (e :: rest))

/-- Unix `filepath.IsAbs`. -/
def IsAbs (path : List Char) : Bool :=
  decide (path.head? = some '/')

/-- The part of a path up to and including its last slash (empty when it has none). -/
def dirPart (path : List Char) : List Char :=
  (path.reverse.dropWhile (fun c => c ≠ '/')).reverse

/-- The part of a path after its last slash (the whole path when it has none). -/
def filePart (path : List Char) : List Char :=
  (path.reverse.takeWhile (fun c => c ≠ '/')).reverse

/-- The decimal digit `d` as a character. -/
def digitChar (d : Nat) : Char :=
  Char.ofNat (48 + d)

/-- Decimal digits of `n`, most significant first; `fuel` bounds the number of digits. -/
def formatNat : Nat → Nat → List Char
  | 0, _ => []
  | fuel + 1, n =>
    if n < 10 then [digitChar n] else formatNat fuel (n / 10) ++ [digitChar (n % 10)]

/-- Go `strconv.Itoa` on character lists. -/
def Itoa : Int → List Char
  | Int.ofNat n => formatNat (n + 1) n
  | Int.negSucc n => '-' :: formatNat (n + 2) (n + 1)

/-- An ordinary path element: it is not empty, holds no slash, and is neither `.` nor
`..`. -/
def plain (d : List Char) : Prop :=
  d ≠ [] ∧ '/' ∉ d ∧ d ≠ ['.'] ∧ d ≠ ['.', '.']

instance (d : List Char) : Decidable (plain d) := by
  unfold plain
  exact inferInstance

/-- A relative path that `Clean` leaves as it is and that stays below the directory it is
joined to: all its elements are ordinary. -/
def plainPath (p : List Char) : Prop :=
  ∀ d ∈ splitSlash p, plain d

instance (p : List Char) : Decidable (plainPath p) := by
  unfold plainPath
  exact inferInstance

/-- The number that a list of decimal digits stands for. -/
def digitsValue (ds : List Char) : Nat :=
  ds.foldl (fun acc c => acc * 10 + (c.toNat - 48)) 0

/-- The cleaned form of the directory text `s` (empty, or ending in a slash), with its
closing slash: what `Clean` puts in front of an ordinary path appended to `s`. -/
def cleanedDir (s : List Char) : List Char :=
  let rooted := decide (s.head? = some '/')
  let stack := (splitSlash s).dropLast.foldl (cleanStep rooted) []
  (if rooted then ['/'] else []) ++
    (if stack = [] then [] else joinSlash stack.reverse ++ ['/'])

end Chars

/-- Go `filepath.Join(elems...)` (Unix). -/
def filepath.Join (elems : List String) : String :=
  String.mk (Chars.Join (elems.map String.data))

/-- Go `path.Join(elems...)`. -/
def path.Join (elems : List String) : String :=
  String.mk (Chars.Join (elems.map String.data))

/-- Go `filepath.Dir(path)` (Unix): the cleaned path up to the last slash. -/
def filepath.Dir (path : String) : String :=
  String.mk (Chars.Clean (Chars.dirPart path.data))

/-- Go `path.Split(p)`: the directory part, ending in the last slash, and the file part. -/
def path.Split (p : String) : String × String :=
  (String.mk (Chars.dirPart p.data), String.mk (Chars.filePart p.data))

/-- Go `strconv.Itoa(i)`. -/
def strconv.Itoa (i : Int) : String :=
  String.mk (Chars.Itoa i)

/-! ## Constants declared elsewhere in the package -/

/-- Package-level constants that the two files use and that are declared in other files. -/
structure Consts where
  StandardLibraryUrl : String
  jsonPropertyMissingError : String
  jsonPropertyTypeError : String
  venvScriptsPath : String
  exeSuffix : String

/-! ## The outside world -/

/-- Severity of a `Logger` call. -/
inductive LogLevel where
  | Debug
  | Info
  | Warn
  | Error
  deriving DecidableEq

/-- One call that leaves the two files: a log line, a query of the lock state, a file-system
call, the manifest read, the run of a nested filter, the version lookup, the fetch, the
search for an executable, a subprocess. The arguments of the call are recorded; format
arguments are recorded as text. -/
inductive Event where
  | Log (level : LogLevel) (format : String) (args : List String)
  | LogError (err : Error)
  | IsUnlocked
  | Stat (path : String)
  | RemoveAll (path : String)
  | SubfilterCollection (id : String)
  | NestedRun (index : Nat) (absoluteLocation : String)
  | GetRemoteFilterDownloadRef (url id version : String) (flag : Bool)
  | GetterGet (dst src : String)
  | LookPath (file : String)
  | RunSubProcess (command : String) (args : List String)
      (absoluteLocation workingDir name : String)

/-- What `os.Stat` reports about an existing path, as far as the code reads it. -/
structure FileInfo where
  IsDir : Bool

/-- The `FilterRunner` interface as far as `RemoteFilter.Run` uses it: a nested filter is
whatever its `Run(absoluteLocation)` does to the outside world and returns. -/
structure FilterRunner (W : Type) where
  Run : String → W → Option Error × W

/-- Result of a call that touches the outside world: the returned value, the world after
the call and the calls that left the two files, in order. -/
structure Outcome (W : Type) (α : Type) where
  value : α
  world : W
  trace : List Event

/-! ## Data model -/

/-- Modelled from the spec: the `FilterDefinition` struct is declared outside these two
files; the spec gives it the string identity `Id`, the only field the code here reads. -/
structure FilterDefinition where
  Id : String

/-- Modelled from the spec: `FilterDefinitionFromObject(id)` is defined outside these two
files; it builds the definition whose identity is `id`. -/
def FilterDefinitionFromObject (id : String) : FilterDefinition :=
  { Id := id }

/-- Modelled from the spec: the `Filter` struct (the per-invocation part of a filter
instance) is declared outside these two files; these are the fields the code here reads. -/
structure Filter where
  Id : String
  Name : String
  Disabled : Bool
  Arguments : List String
  Settings : GoMap

/-- The definition of a Python filter: the embedded `FilterDefinition`, the script path and
the slot of the shared environment. -/
structure PythonFilterDefinition extends FilterDefinition where
  Script : String
  VenvSlot : Int

/-- A Python filter instance: the embedded `Filter` and its definition. -/
structure PythonFilter extends Filter where
  Definition : PythonFilterDefinition

/-- The definition of a remote filter: the embedded `FilterDefinition`, the source Url, the
version and the slot passed on to nested Python filters. -/
structure RemoteFilterDefinition extends FilterDefinition where
  Url : String
  Version : String
  VenvSlot : Int

/-- A remote filter instance: the embedded `Filter` and its definition. -/
structure RemoteFilter extends Filter where
  Definition : RemoteFilterDefinition

/-- Modelled from the spec: the `RunContext` struct is declared outside these two files; a
run context carries the absolute content-root location of the filter, the hidden-root path
and an interruption query. -/
structure RunContext (W : Type) where
  AbsoluteLocation : String
  DotRegolithPath : String
  IsInterrupted : W → Bool

/-- The collaborators of the two files: functions of the package defined in other files
(`IsUnlocked`, `SubfilterCollection`, `GetRemoteFilterDownloadRef`, `RunSubProcess`,
`GetAbsoluteWorkingDirectory`, `ShortFilterName`), of the Go standard library (`os.Stat`,
`os.Getwd`, `os.RemoveAll`, `exec.LookPath`, `json.Marshal`, `time.Since`) and of
`go-getter` (`getter.Get`), each as a function of the outside world `W`. A Go `error` result
is `Option Error` (`none` is `nil`). -/
structure Lib (W : Type) extends Consts where
  IsUnlocked : W → Bool
  Stat : String → W → Except Error FileInfo
  Getwd : W → Except Error String
  RemoveAll : String → W → Option Error × W
  SubfilterCollection : RemoteFilter → W → Except Error (List (FilterRunner W))
  GetRemoteFilterDownloadRef : String → String → String → Bool → W → Except Error String × W
  GetterGet : String → String → W → Option Error × W
  LookPath : String → W → Option Error
  RunSubProcess : String → List String → String → String → String → W → Option Error × W
  GetAbsoluteWorkingDirectory : String → W → String
  ShortFilterName : String → String
  jsonMarshal : GoMap → String × Option Error
  SinceText : W → String

/-- Go `filepath.Abs(path)` (Unix): an absolute path is cleaned, a relative one is joined to
the working directory, and the error of `os.Getwd` is passed on. -/
def filepath.Abs {W : Type} (L : Lib W) (path : String) (w : W) : Except Error String :=
  if Chars.IsAbs path.data then Except.ok (String.mk (Chars.Clean path.data))
  else
    match L.Getwd w with
    | Except.error err => Except.error err
    | Except.ok wd => Except.ok (filepath.Join [wd, path])

/-- Go `p, _ := filepath.Abs(path)`: the error is dropped, and with it the path is empty. -/
def filepath.AbsOrEmpty {W : Type} (L : Lib W) (path : String) (w : W) : String :=
  match filepath.Abs L path w with
  | Except.ok p => p
  | Except.error _ => ""

/-! ## Parsing definitions -/

/-- Go `n, _ := v.(int)`: the zero value when the assertion fails. -/
def GoValue.intOrZero (v : GoValue) : Int :=
  match v.assertInt with
  | some n => n
  | none => 0

def PythonFilterDefinitionFromObject (c : Consts) (id : String) (obj : GoMap) :
    Except Error PythonFilterDefinition :=
  let filter := FilterDefinitionFromObject id
  match obj.index "script" with
  | none => Except.error (Error.WrappedErrorf c.jsonPropertyMissingError ["script"])
  | some scripObj =>
    match scripObj.assertString with
    | none => Except.error (Error.WrappedErrorf c.jsonPropertyTypeError ["script", "string"])
    | some script =>
      Except.ok { toFilterDefinition := filter, Script := script,
                  VenvSlot := (obj.at "venvSlot").intOrZero }

def RemoteFilterDefinitionFromObject (c : Consts) (id : String) (obj : GoMap) :
    Except Error RemoteFilterDefinition :=
  let result := FilterDefinitionFromObject id
  let url :=
    match (obj.at "url").assertString with
    | none => c.StandardLibraryUrl
    | some url => url
  match (obj.at "version").assertString with
  | none =>
    Except.error
      (Error.WrapErrorf none "missing 'version' property in filter definition %s" [id])
  | some version =>
    Except.ok { toFilterDefinition := result, Url := url, Version := version,
                VenvSlot := (obj.at "venvSlot").intOrZero }

/-! ## Remote filters -/

/-- GetDownloadPath returns the path location where the filter can be found. -/
def RemoteFilter.GetDownloadPath (f : RemoteFilter) : String :=
  filepath.Join [".regolith/cache/filters", f.Id]

/-- GetDownloadPath returns the path location where the filter can be found. -/
def RemoteFilterDefinition.GetDownloadPath (i : RemoteFilterDefinition) : String :=
  filepath.Join [".regolith/cache/filters", i.Id]

/-- IsCached checks whether the filter is already saved in cache: `os.Stat` of the download
path returns no error. -/
def RemoteFilter.IsCached {W : Type} (L : Lib W) (f : RemoteFilter) (w : W) : Bool :=
  match L.Stat f.GetDownloadPath w with
  | Except.ok _ => true
  | Except.error _ => false

/-- IsInstalled returns whether the filter is currently installed or not. -/
def RemoteFilterDefinition.IsInstalled {W : Type} (L : Lib W) (i : RemoteFilterDefinition)
    (w : W) : Bool :=
  match L.Stat i.GetDownloadPath w with
  | Except.ok _ => true
  | Except.error _ => false

def RemoteFilter.GetFriendlyName (f : RemoteFilter) : String :=
  if f.Name ≠ "" then f.Name
  else if f.Id ≠ "" then f.Id
  else (path.Split f.Definition.Url).2

/-- The loop of `RemoteFilter.Run` over the nested filters, from the filter with index
`index` on: each nested filter runs against `absolutePath`, and the first error ends the
loop and is returned as it is. -/
def RemoteFilter.runFilters {W : Type} (absolutePath : String) :
    Nat → List (FilterRunner W) → W → Outcome W (Option Error)
  | _, [], w => { value := none, world := w, trace := [] }
  | index, filter :: rest, w =>
    match filter.Run absolutePath w with
    | (some err, w1) =>
      { value := some err, world := w1, trace := [Event.NestedRun index absolutePath] }
    | (none, w1) =>
      let r := RemoteFilter.runFilters absolutePath (index + 1) rest w1
      { value := r.value, world := r.world,
        trace := Event.NestedRun index absolutePath :: r.trace }

/-- The error of `RemoteFilter.Run` for a filter from another source than the standard
library while safe mode is on. -/
def safeModeError : Error :=
  Error.WrapError none
    ("Safe mode is on, which protects you from potentially unsafe " ++
      "code.\nYou may turn it off using 'regolith unlock'")

/-- The error of `RemoteFilter.Run` for a filter that is not in the cache. -/
def notInstalledError : Error :=
  Error.WrapError none "Filter is not downloaded. Please run 'regolith install'"

def RemoteFilter.Run {W : Type} (L : Lib W) (f : RemoteFilter) (_absoluteLocation : String)
    (w : W) : Outcome W (Option Error) :=
  -- Disabled filters are skipped
  if f.Disabled then
    { value := none, world := w,
      trace := [Event.Log LogLevel.Info "Filter '%s' is disabled, skipping."
        [f.GetFriendlyName]] }
  else
    -- All other filters require safe mode to be turned off; `IsUnlocked` is only asked
    -- when the left operand of `&&` holds
    let asked := if f.Definition.Url ≠ L.StandardLibraryUrl then [Event.IsUnlocked] else []
    if f.Definition.Url ≠ L.StandardLibraryUrl ∧ L.IsUnlocked w = false then
      { value := some safeModeError, world := w, trace := asked }
    else
      let started := asked ++
        [Event.Log LogLevel.Info "Running filter %s" [f.GetFriendlyName],
         Event.Log LogLevel.Debug "RunRemoteFilter '%s'" [f.Definition.Url],
         Event.Stat f.GetDownloadPath]
      -- the deferred call, its argument evaluated at the `defer` statement
      let deferred := [Event.Log LogLevel.Debug "Executed in %s" [L.SinceText w]]
      if f.IsCached L w = false then
        { value := some notInstalledError, world := w, trace := started ++ deferred }
      else
        let path := f.GetDownloadPath
        let absolutePath := filepath.AbsOrEmpty L path w
        match L.SubfilterCollection f w with
        | Except.error err =>
          { value := some err, world := w,
            trace := started ++ [Event.SubfilterCollection f.Id] ++ deferred }
        | Except.ok filterCollection =>
          let r := RemoteFilter.runFilters absolutePath 0 filterCollection w
          { value := r.value, world := r.world,
            trace := started ++ [Event.SubfilterCollection f.Id] ++ r.trace ++ deferred }

def RemoteFilterDefinition.Uninstall {W : Type} (L : Lib W) (i : RemoteFilterDefinition)
    (w : W) : Outcome W Unit :=
  match L.RemoveAll i.GetDownloadPath w with
  | (some err, w1) =>
    { value := (), world := w1,
      trace := [Event.RemoveAll i.GetDownloadPath,
        Event.LogError
          (Error.WrapErrorf (some err) "Could not remove installed filter %s." [i.Id])] }
  | (none, w1) => { value := (), world := w1, trace := [Event.RemoveAll i.GetDownloadPath] }

/-- GetDownloadUrl creates a download URL, based on the filter definition. -/
def RemoteFilterDefinition.GetDownloadUrl {W : Type} (L : Lib W)
    (i : RemoteFilterDefinition) (w : W) : Outcome W (Except Error String) :=
  let asked := [Event.GetRemoteFilterDownloadRef i.Url i.Id i.Version true]
  match L.GetRemoteFilterDownloadRef i.Url i.Id i.Version true w with
  | (Except.error err, w1) =>
    { value := Except.error
        (Error.WrapErrorf (some err) "unable to get download URL for filter %q" [i.Id]),
      world := w1, trace := asked }
  | (Except.ok repoVersion, w1) =>
    { value := Except.ok (i.Url ++ "//" ++ i.Id ++ "?ref=" ++ repoVersion),
      world := w1, trace := asked }

/-- The part of `Download` after the check for an installed filter: resolve the URL, fetch,
remove the `test` folder. -/
def RemoteFilterDefinition.fetch {W : Type} (L : Lib W) (i : RemoteFilterDefinition)
    (w : W) : Outcome W (Option Error) :=
  let announced := [Event.Log LogLevel.Info "Downloading filter %s..." [i.Id]]
  let u := i.GetDownloadUrl L w
  match u.value with
  | Except.error err =>
    { value := some (Error.WrapError (some err) "unable to get download URL"),
      world := u.world, trace := announced ++ u.trace }
  | Except.ok url =>
    let downloadPath := i.GetDownloadPath
    match L.GetterGet downloadPath url u.world with
    | (some err, w2) =>
      { value := some (Error.WrapErrorf (some err)
          ("Could not download filter from %s.\n" ++
            "\tIs git installed?\n" ++
            "\tDoes that filter exist?") [url]),
        world := w2, trace := announced ++ u.trace ++ [Event.GetterGet downloadPath url] }
    | (none, w2) =>
      -- Remove the test folder, which we never want to use (saves space on disk)
      let testFolder := path.Join [downloadPath, "test"]
      let fetched := announced ++ u.trace ++
        [Event.GetterGet downloadPath url, Event.Stat testFolder]
      let done := [Event.Log LogLevel.Info "Filter %s downloaded successfully." [i.Id]]
      match L.Stat testFolder w2 with
      | Except.ok _ =>
        { value := none, world := (L.RemoveAll testFolder w2).2,
          trace := fetched ++ [Event.RemoveAll testFolder] ++ done }
      | Except.error _ => { value := none, world := w2, trace := fetched ++ done }

def RemoteFilterDefinition.Download {W : Type} (L : Lib W) (i : RemoteFilterDefinition)
    (isForced : Bool) (w : W) : Outcome W (Option Error) :=
  let checked := [Event.Stat i.GetDownloadPath]
  if i.IsInstalled L w then
    if isForced = false then
      { value := none, world := w,
        trace := checked ++
          [Event.Log LogLevel.Warn
            "Filter %q already installed, skipping. Run with '-f' to force." [i.Id]] }
    else
      let warned := checked ++
        [Event.Log LogLevel.Warn
          ("Filter %q already installed, but force mode is enabled.\n" ++
            "Filter will be installed, erasing prior contents.") [i.Id]]
      let u := i.Uninstall L w
      let r := i.fetch L u.world
      { value := r.value, world := r.world, trace := warned ++ u.trace ++ r.trace }
  else
    let r := i.fetch L w
    { value := r.value, world := r.world, trace := checked ++ r.trace }

/-! ## Python filters -/

/-- The loop of `findPython` over the candidate commands. -/
def findPythonIn {W : Type} (L : Lib W) (w : W) : List String → List Event × Option String
  | [] => ([], none)
  | c :: rest =>
    match L.LookPath c w with
    | none => ([Event.LookPath c], some c)
    | some _ =>
      let r := findPythonIn L w rest
      (Event.LookPath c :: r.1, r.2)

def findPython {W : Type} (L : Lib W) (w : W) : Outcome W (Except Error String) :=
  let r := findPythonIn L w ["python3", "python"]
  match r.2 with
  | some c => { value := Except.ok c, world := w, trace := r.1 }
  | none =>
    { value := Except.error (Error.WrappedError
        ("Python not found, download and install it from " ++
          "https://www.python.org/downloads/")),
      world := w, trace := r.1 }

def needsVenv {W : Type} (L : Lib W) (filterPath : String) (w : W) : Bool :=
  match L.Stat (filepath.Join [filterPath, "requirements.txt"]) w with
  | Except.ok stats => !stats.IsDir
  | Except.error _ => false

def PythonFilterDefinition.resolveVenvPath {W : Type} (L : Lib W)
    (f : PythonFilterDefinition) (dotRegolithPath : String) (w : W) : Except Error String :=
  match filepath.Abs L
      (filepath.Join [filepath.Join [dotRegolithPath, "cache/venvs"],
        strconv.Itoa f.VenvSlot]) w with
  | Except.error err =>
    Except.error (Error.WrapErrorf (some err) "Unable to create venv for VenvSlot %v."
      [strconv.Itoa f.VenvSlot])
  | Except.ok resolvedPath => Except.ok resolvedPath

/-- The part of `PythonFilter.run` from `var args` on, for the interpreter chosen before:
the argument vector is built and the subprocess runs. -/
def PythonFilter.runCommand {W : Type} (L : Lib W) (f : PythonFilter) (context : RunContext W)
    (scriptPath pythonCommand : String) (w : W) : Outcome W (Option Error) :=
  let args :=
    if f.Settings.length = 0 then
      ["-u", scriptPath] ++ f.Arguments
    else
      let jsonSettings := (L.jsonMarshal f.Settings).1
      ["-u", scriptPath, jsonSettings] ++ f.Arguments
  let workingDir := L.GetAbsoluteWorkingDirectory context.DotRegolithPath w
  let call := [Event.RunSubProcess pythonCommand args context.AbsoluteLocation workingDir
    (L.ShortFilterName f.Id)]
  match L.RunSubProcess pythonCommand args context.AbsoluteLocation workingDir
      (L.ShortFilterName f.Id) w with
  | (some err, w1) =>
    { value := some (Error.WrapError (some err) "Failed to run Python script."),
      world := w1, trace := call }
  | (none, w1) => { value := none, world := w1, trace := call }

def PythonFilter.run {W : Type} (L : Lib W) (f : PythonFilter) (context : RunContext W)
    (w : W) : Outcome W (Option Error) :=
  let found := findPython L w
  match found.value with
  | Except.error err =>
    { value := some (Error.PassError err), world := w, trace := found.trace }
  | Except.ok pythonCommand =>
    let scriptPath := filepath.Join [context.AbsoluteLocation, f.Definition.Script]
    let looked := found.trace ++
      [Event.Stat (filepath.Join [filepath.Dir scriptPath, "requirements.txt"])]
    if needsVenv L (filepath.Dir scriptPath) w then
      match f.Definition.resolveVenvPath L context.DotRegolithPath w with
      | Except.error err =>
        { value := some (Error.WrapError (some err) "Failed to resolve venv path."),
          world := w, trace := looked }
      | Except.ok venvPath =>
        let r := f.runCommand L context scriptPath
          (filepath.Join [venvPath, L.venvScriptsPath, "python" ++ L.exeSuffix]) w
        { value := r.value, world := r.world,
          trace := looked ++
            [Event.Log LogLevel.Debug "Running Python filter using venv: " [venvPath]] ++
            r.trace }
    else
      let r := f.runCommand L context scriptPath pythonCommand w
      { value := r.value, world := r.world, trace := looked ++ r.trace }

def PythonFilter.Run {W : Type} (L : Lib W) (f : PythonFilter) (context : RunContext W)
    (w : W) : Outcome W (Bool × Option Error) :=
  let r := f.run L context w
  match r.value with
  | some err =>
    { value := (false, some (Error.PassError err)), world := r.world, trace := r.trace }
  | none => { value := (context.IsInterrupted r.world, none), world := r.world, trace := r.trace }

/-! ## Reading traces and nested runs -/

/-- The nested filter runs of a trace: index in the manifest and location, in order. -/
def nestedRuns : List Event → List (Nat × String)
  | [] => []
  | Event.NestedRun index absoluteLocation :: rest =>
    (index, absoluteLocation) :: nestedRuns rest
  | _ :: rest => nestedRuns rest

/-- The argument vectors of the subprocesses of a trace, in order. -/
def subprocessArgs : List Event → List (List String)
  | [] => []
  | Event.RunSubProcess _ args _ _ _ :: rest => args :: subprocessArgs rest
  | _ :: rest => subprocessArgs rest

/-- The world after the filters of `filters` ran one after the other against
`absolutePath`, starting in `w`, whatever they returned. -/
def worldAfter {W : Type} (absolutePath : String) (filters : List (FilterRunner W)) (w : W) :
    W :=
  filters.foldl (fun w1 filter => (filter.Run absolutePath w1).2) w

/-- What the filter at position `k` of `filters` returns when it runs against
`absolutePath` after the `k` filters before it ran in order; `none` also when there is no
such filter. -/
def nestedError {W : Type} (absolutePath : String) (filters : List (FilterRunner W)) (w : W)
    (k : Nat) : Option Error :=
  match filters[k]? with
  | some filter => (filter.Run absolutePath (worldAfter absolutePath (filters.take k) w)).1
  | none => none

/-- The argument vector the spec gives for a Python filter: the unbuffered-output flag and
the script path, then, when settings are present, one argument with their JSON text, then
the trailing arguments of the instance. -/
def PythonFilter.specArgs {W : Type} (L : Lib W) (f : PythonFilter) (context : RunContext W) :
    List String :=
  match f.Settings with
  | [] => ["-u", filepath.Join [context.AbsoluteLocation, f.Definition.Script]] ++ f.Arguments
  | _ :: _ =>
    ["-u", filepath.Join [context.AbsoluteLocation, f.Definition.Script],
      (L.jsonMarshal f.Settings).1] ++ f.Arguments

/-! ## A small concrete world

A stand-in outside world on which the definitions above can be evaluated: a lock flag, the
existing paths with their kind, and the list of processes and nested filters that ran. -/

structure ExampleWorld where
  unlocked : Bool
  paths : List (String × Bool)
  ran : List (String × List String)

/-- Whether `encoding/json` writes the character as it is inside a string: not a control
character, not the quote, the backslash, `<`, `>`, `&`, U+2028 or U+2029. -/
def exampleJsonPlain (c : Char) : Bool :=
  decide (32 ≤ c.toNat) && c.toNat != 34 && c.toNat != 92 && c.toNat != 60 &&
    c.toNat != 62 && c.toNat != 38 && c.toNat != 8232 && c.toNat != 8233

/-- The JSON text of a string that needs no escaping; `none` for a string that does. -/
def exampleJsonString (s : List Char) : Option (List Char) :=
  if s.all exampleJsonPlain then some ("\"".data ++ s ++ "\"".data) else none

/-- Order of object keys in the JSON text: by code point, a proper beginning first. -/
def exampleKeyLe : List Char → List Char → Bool
  | [], _ => true
  | _ :: _, [] => false
  | a :: as, b :: bs =>
    if a.toNat < b.toNat then true
    else if b.toNat < a.toNat then false
    else exampleKeyLe as bs

/-- Puts a field in its place among fields sorted by key. -/
def exampleInsertField (f : List Char × List Char) :
    List (List Char × List Char) → List (List Char × List Char)
  | [] => [f]
  | g :: rest =>
    if exampleKeyLe f.1 g.1 then f :: g :: rest else g :: exampleInsertField f rest

/-- The first binding of every key, as `GoMap.index` reads an association list. -/
def exampleFirstBindings :
    List (List Char × List Char) → List (List Char × List Char)
  | [] => []
  | f :: rest => f :: (exampleFirstBindings rest).filter (fun g => g.1 ≠ f.1)

/-- The JSON text of an object from its fields (key, text of the value): the first binding
of every key, sorted by key, separated by commas, between braces. -/
def exampleJsonObject (fields : List (List Char × List Char)) : List Char :=
  "\x7b".data ++
    ",".data.intercalate
      (((exampleFirstBindings fields).foldr exampleInsertField []).map
        (fun f => "\"".data ++ f.1 ++ "\":".data ++ f.2)) ++
    "\x7d".data

mutual
/-- Stand-in for the text `encoding/json` writes for a value. It covers nil, booleans, `int`,
`float64` holding a whole number of magnitude below `2 ^ 53`, strings and keys that need no
escaping, and slices and maps of covered values; for any other value it gives `none`. -/
def exampleMarshalValue : GoValue → Option (List Char)
  | GoValue.nil => some "null".data
  | GoValue.bool true => some "true".data
  | GoValue.bool false => some "false".data
  | GoValue.int n => some (Chars.Itoa n)
  | GoValue.float64 bits => (float64Whole bits).map Chars.Itoa
  | GoValue.string v => exampleJsonString v.data
  | GoValue.slice xs =>
    (exampleMarshalItems xs).map (fun items => "[".data ++ ",".data.intercalate items ++ "]".data)
  | GoValue.map kvs => (exampleMarshalFields kvs).map exampleJsonObject
/-- The texts of the items of a slice, when all of them are covered. -/
def exampleMarshalItems : List GoValue → Option (List (List Char))
  | [] => some []
  | x :: rest =>
    match exampleMarshalValue x, exampleMarshalItems rest with
    | some text, some more => some (text :: more)
    | _, _ => none
/-- The fields of a map, key and text of the value, when all of them are covered. -/
def exampleMarshalFields : List (String × GoValue) → Option (List (List Char × List Char))
  | [] => some []
  | (k, v) :: rest =>
    match exampleJsonString k.data, exampleMarshalValue v, exampleMarshalFields rest with
    | some _, some text, some more => some ((k.data, text) :: more)
    | _, _, _ => none
end

/-- Stand-in for `json.Marshal` on a settings object: the text `encoding/json` writes and a
nil error for the objects that `exampleMarshalValue` covers. For the others (fractions and
very large numbers, strings that need escaping) `encoding/json` still returns a text; the
stand-in does not model it and returns an error and no text. -/
def exampleMarshal (m : GoMap) : String × Option Error :=
  match exampleMarshalValue (GoValue.map m) with
  | some text => (String.mk text, none)
  | none => ("", some (Error.external "value outside the modelled part of encoding/json"))

/-- Nested filter that records its run and fails when told to. -/
def exampleNested (name : String) (fails : Bool) : FilterRunner ExampleWorld :=
  { Run := fun absoluteLocation w =>
      (if fails then some (Error.external name) else none,
       { w with ran := w.ran ++ [(name, [absoluteLocation])] }) }

/-- The paths that are left when `p` and everything below it is removed. -/
def exampleRemove (p : String) (paths : List (String × Bool)) : List (String × Bool) :=
  paths.filter (fun q => !(decide (q.1 = p) || (p.data ++ ['/']).isPrefixOf q.1.data))

def exampleConsts : Consts :=
  { StandardLibraryUrl := "github.com/Bedrock-OSS/regolith-filters"
    jsonPropertyMissingError := "Required JSON property is missing: %s"
    jsonPropertyTypeError := "JSON property %s is not a %s"
    venvScriptsPath := "bin"
    exeSuffix := "" }

def exampleLib : Lib ExampleWorld :=
  { toConsts := exampleConsts
    IsUnlocked := fun w => w.unlocked
    Stat := fun p w =>
      match w.paths.lookup p with
      | some isDir => Except.ok { IsDir := isDir }
      | none => Except.error (Error.external "no such file or directory")
    Getwd := fun _ => Except.ok "/project"
    RemoveAll := fun p w => (none, { w with paths := exampleRemove p w.paths })
    SubfilterCollection := fun f _ =>
      if f.Id = "broken" then Except.error (Error.external "could not read filter.json")
      else Except.ok
        [exampleNested "first" false, exampleNested "second" true, exampleNested "third" false]
    GetRemoteFilterDownloadRef := fun _ _ version _ w => (Except.ok version, w)
    GetterGet := fun dst _ w => (none, { w with paths := (dst, true) :: w.paths })
    LookPath := fun c _ =>
      if c = "python3" then none else some (Error.external "executable file not found")
    RunSubProcess := fun command args _ _ _ w =>
      (none, { w with ran := w.ran ++ [(command, args)] })
    GetAbsoluteWorkingDirectory := fun p _ => filepath.Join ["/project", p, ".."]
    ShortFilterName := fun id => id
    jsonMarshal := exampleMarshal
    SinceText := fun _ => "0s" }

/-- A project with one cached filter `hello` and nothing else. -/
def exampleWorld (unlocked : Bool) : ExampleWorld :=
  { unlocked := unlocked, paths := [(".regolith/cache/filters/hello", true)], ran := [] }

def examplePythonFilter (settings : GoMap) (arguments : List String) : PythonFilter :=
  { Id := "hello", Name := "", Disabled := false, Arguments := arguments, Settings := settings
    Definition := { Id := "hello", Script := "main.py", VenvSlot := 0 } }

def exampleContext : RunContext ExampleWorld :=
  { AbsoluteLocation := "/project/filters/hello", DotRegolithPath := ".regolith"
    IsInterrupted := fun _ => false }

def exampleRemoteFilter (id url : String) (disabled : Bool) : RemoteFilter :=
  { Id := id, Name := "", Disabled := disabled, Arguments := [], Settings := []
    Definition := { Id := id, Url := url, Version := "1.0.0", VenvSlot := 0 } }

/-! ## Path functions: lemmas -/

namespace Chars

theorem splitSlash_ne_nil (p : List Char) : splitSlash p ≠ [] := by
  cases p with
  | nil => simp [splitSlash]
  | cons c cs =>
    unfold splitSlash
    split
    · simp
    · cases splitSlash cs <;> simp [consHead]

theorem consHead_append (c : Char) (xs ys : List (List Char)) (h : xs ≠ []) :
    consHead c (xs ++ ys) = consHead c xs ++ ys := by
  cases xs with
  | nil => exact absurd rfl h
  | cons x xs => rfl

theorem splitSlash_append_slash (a b : List Char) :
    splitSlash (a ++ '/' :: b) = splitSlash a ++ splitSlash b := by
  induction a with
  | nil => simp [splitSlash]
  | cons c a ih =>
    by_cases hc : c = '/'
    · simp [splitSlash, hc, ih]
    · simp [splitSlash, hc, ih, consHead_append _ _ _ (splitSlash_ne_nil a)]

theorem joinSlash_cons (a : List Char) (xs : List (List Char)) (h : xs ≠ []) :
    joinSlash (a :: xs) = a ++ '/' :: joinSlash xs := by
  cases xs with
  | nil => exact absurd rfl h
  | cons x xs => rfl

theorem joinSlash_consHead (c : Char) (xs : List (List Char)) (h : xs ≠ []) :
    joinSlash (consHead c xs) = c :: joinSlash xs := by
  cases xs with
  | nil => exact absurd rfl h
  | cons x xs => cases xs <;> rfl

theorem joinSlash_splitSlash (p : List Char) : joinSlash (splitSlash p) = p := by
  induction p with
  | nil => rfl
  | cons c p ih =>
    by_cases hc : c = '/'
    · simp [splitSlash, hc, joinSlash_cons _ _ (splitSlash_ne_nil p), ih]
    · simp [splitSlash, hc, joinSlash_consHead _ _ (splitSlash_ne_nil p), ih]

theorem joinSlash_append (xs ys : List (List Char)) (hx : xs ≠ []) (hy : ys ≠ []) :
    joinSlash (xs ++ ys) = joinSlash xs ++ '/' :: joinSlash ys := by
  induction xs with
  | nil => exact absurd rfl hx
  | cons x xs ih =>
    cases xs with
    | nil => simp [joinSlash_cons _ _ hy, joinSlash]
    | cons x1 xs =>
      have h1 : (x1 :: xs) ++ ys ≠ [] := by simp
      rw [List.cons_append, joinSlash_cons _ _ h1, ih (by simp),
        joinSlash_cons x (x1 :: xs) (by simp)]
      simp

theorem cleanStep_plain (rooted : Bool) (stack : List (List Char)) (d : List Char)
    (h : plain d) : cleanStep rooted stack d = d :: stack := by
  obtain ⟨h1, _, h3, h4⟩ := h
  simp [cleanStep, h1, h3, h4]

theorem foldl_cleanStep_plain (rooted : Bool) (ds : List (List Char)) :
    ∀ stack, (∀ d ∈ ds, plain d) → ds.foldl (cleanStep rooted) stack = ds.reverse ++ stack := by
  induction ds with
  | nil => intro stack _; rfl
  | cons d ds ih =>
    intro stack h
    have hd : plain d := h d (List.mem_cons_self d ds)
    have hds : ∀ x ∈ ds, plain x := fun x hx => h x (List.mem_cons_of_mem d hx)
    rw [List.foldl_cons, cleanStep_plain rooted stack d hd, ih _ hds]
    simp

theorem plainPath_ne_nil (p : List Char) (h : plainPath p) : p ≠ [] := by
  intro hp
  subst hp
  exact (h [] (by simp [splitSlash])).1 rfl

theorem plainPath_head (p : List Char) (h : plainPath p) : p.head? ≠ some '/' := by
  cases p with
  | nil => simp
  | cons c cs =>
    intro hc
    have hc1 : c = '/' := by simpa using hc
    subst hc1
    exact (h [] (by simp [splitSlash])).1 rfl

/-- Cleaning a directory text followed by an ordinary path keeps the ordinary path as the
end of the result; what comes before it depends on the directory text only. -/
theorem Clean_dir_append (s p : List Char) (hs : s = [] ∨ ∃ t, s = t ++ ['/'])
    (hp : plainPath p) : Clean (s ++ p) = cleanedDir s ++ p := by
  have hpne : p ≠ [] := plainPath_ne_nil p hp
  have hne : s ++ p ≠ [] := by simp [hpne]
  have hsplit : splitSlash (s ++ p) = (splitSlash s).dropLast ++ splitSlash p := by
    rcases hs with h | ⟨t, h⟩
    · subst h; simp [splitSlash]
    · subst h
      have h1 : t ++ ['/'] ++ p = t ++ '/' :: p := by simp
      have h2 : splitSlash (t ++ ['/']) = splitSlash t ++ [[]] := by
        rw [splitSlash_append_slash]; simp [splitSlash]
      rw [h1, splitSlash_append_slash, h2, List.dropLast_concat]
  have hhead : (s ++ p).head? = some '/' ↔ s.head? = some '/' := by
    cases s with
    | nil =>
      have := plainPath_head p hp
      simp [this]
    | cons c cs => simp
  have hdec : decide ((s ++ p).head? = some '/') = decide (s.head? = some '/') := by
    simp only [hhead]
  unfold Clean cleanedDir
  rw [if_neg hne]
  simp only [hdec, hsplit, List.foldl_append]
  rw [foldl_cleanStep_plain _ _ _ hp]
  have hB : splitSlash p ≠ [] := splitSlash_ne_nil p
  generalize List.foldl (cleanStep (decide (s.head? = some '/'))) []
    (splitSlash s).dropLast = stack
  unfold cleanRender
  have hne2 : (splitSlash p).reverse ++ stack ≠ [] := by simp [hB]
  by_cases hst : stack = []
  · subst hst
    by_cases hr : s.head? = some '/' <;> simp [hr, hB, joinSlash_splitSlash]
  · have hrev : stack.reverse ≠ [] := by simpa using hst
    by_cases hr : s.head? = some '/' <;>
      simp [hr, hB, hst, joinSlash_append _ _ hrev hB, joinSlash_splitSlash]

theorem cleanedDir_dir (s : List Char) :
    cleanedDir s = [] ∨ ∃ t, cleanedDir s = t ++ ['/'] := by
  unfold cleanedDir
  simp only
  generalize List.foldl (cleanStep (decide (s.head? = some '/'))) []
    (splitSlash s).dropLast = stack
  by_cases hst : stack = []
  · by_cases hr : s.head? = some '/'
    · right; exact ⟨[], by simp [hr, hst]⟩
    · left; simp [hr, hst]
  · right
    by_cases hr : s.head? = some '/'
    · exact ⟨'/' :: joinSlash stack.reverse, by simp [hr, hst]⟩
    · exact ⟨joinSlash stack.reverse, by simp [hr, hst]⟩

/-- Joining a directory to an ordinary path keeps the ordinary path as the end of the
result; what comes before it depends on the directory only. -/
theorem Join_pair_plain (a : List Char) :
    ∃ dir, (dir = [] ∨ ∃ t, dir = t ++ ['/']) ∧
      ∀ p, plainPath p → Join [a, p] = dir ++ p := by
  by_cases ha : a = []
  · refine ⟨cleanedDir [], cleanedDir_dir [], ?_⟩
    intro p hp
    have hpne := plainPath_ne_nil p hp
    have h := Clean_dir_append [] p (Or.inl rfl) hp
    simp only [List.nil_append] at h
    simp [Join, ha, hpne, joinSlash, h]
  · refine ⟨cleanedDir (a ++ ['/']), cleanedDir_dir _, ?_⟩
    intro p hp
    have h := Clean_dir_append (a ++ ['/']) p (Or.inr ⟨a, rfl⟩) hp
    simp only [List.append_assoc, List.singleton_append] at h
    simp [Join, ha, joinSlash, h]

theorem digitChar_toNat (d : Nat) (h : d < 10) : (digitChar d).toNat = 48 + d := by
  interval_cases d <;> rfl

theorem formatNat_digits (fuel : Nat) :
    ∀ n, ∀ c ∈ formatNat fuel n, ∃ d, d < 10 ∧ c = digitChar d := by
  induction fuel with
  | zero => intro n c hc; simp [formatNat] at hc
  | succ fuel ih =>
    intro n c hc
    unfold formatNat at hc
    split at hc
    · rename_i hn
      exact ⟨n, hn, by simpa using hc⟩
    · rcases List.mem_append.mp hc with h | h
      · exact ih _ c h
      · exact ⟨n % 10, Nat.mod_lt n (by decide), by simpa using h⟩

theorem formatNat_ne_nil (fuel n : Nat) : formatNat (fuel + 1) n ≠ [] := by
  unfold formatNat
  split <;> simp

theorem digitsValue_append (ds : List Char) (c : Char) :
    digitsValue (ds ++ [c]) = digitsValue ds * 10 + (c.toNat - 48) := by
  simp [digitsValue, List.foldl_append]

theorem digitsValue_formatNat (fuel : Nat) :
    ∀ n, n < fuel → digitsValue (formatNat fuel n) = n := by
  induction fuel with
  | zero => intro n h; exact absurd h (Nat.not_lt_zero n)
  | succ fuel ih =>
    intro n h
    unfold formatNat
    split
    · rename_i hn
      simp [digitsValue, digitChar_toNat n hn]
    · rename_i hn
      have h1 : n / 10 < fuel := by omega
      rw [digitsValue_append, ih _ h1, digitChar_toNat _ (Nat.mod_lt n (by decide))]
      omega

theorem digitChar_ne (d : Nat) (h : d < 10) :
    digitChar d ≠ '/' ∧ digitChar d ≠ '.' ∧ digitChar d ≠ '-' := by
  interval_cases d <;> decide

theorem Itoa_chars (i : Int) : ∀ c ∈ Itoa i, c ≠ '/' ∧ c ≠ '.' := by
  intro c hc
  cases i with
  | ofNat n =>
    obtain ⟨d, hd, rfl⟩ := formatNat_digits _ _ c hc
    exact ⟨(digitChar_ne d hd).1, (digitChar_ne d hd).2.1⟩
  | negSucc n =>
    rcases List.mem_cons.mp hc with h | h
    · subst h; decide
    · obtain ⟨d, hd, rfl⟩ := formatNat_digits _ _ c h
      exact ⟨(digitChar_ne d hd).1, (digitChar_ne d hd).2.1⟩

theorem Itoa_ne_nil (i : Int) : Itoa i ≠ [] := by
  cases i with
  | ofNat n => exact formatNat_ne_nil n n
  | negSucc n => simp [Itoa]

theorem Itoa_plain (i : Int) : plain (Itoa i) := by
  have hc := Itoa_chars i
  refine ⟨Itoa_ne_nil i, ?_, ?_, ?_⟩
  · intro h; exact (hc _ h).1 rfl
  · intro h
    have : '.' ∈ Itoa i := by rw [h]; simp
    exact (hc _ this).2 rfl
  · intro h
    have : '.' ∈ Itoa i := by rw [h]; simp
    exact (hc _ this).2 rfl

theorem Itoa_plainPath (i : Int) : plainPath (Itoa i) := by
  have hno : ∀ (p : List Char), '/' ∉ p → splitSlash p = [p] := by
    intro p
    induction p with
    | nil => intro _; rfl
    | cons c cs ih =>
      intro h
      have hc : c ≠ '/' := fun e => h (by simp [e])
      have hcs : '/' ∉ cs := fun e => h (List.mem_cons_of_mem c e)
      simp [splitSlash, hc, ih hcs, consHead]
  intro d hd
  rw [hno _ (Itoa_plain i).2.1] at hd
  have : d = Itoa i := by simpa using hd
  subst this
  exact Itoa_plain i

theorem Itoa_injective (i j : Int) (h : Itoa i = Itoa j) : i = j := by
  have hhead : ∀ n : Nat, ∀ rest, formatNat (n + 1) n ≠ '-' :: rest := by
    intro n rest e
    have hm : '-' ∈ formatNat (n + 1) n := by rw [e]; simp
    obtain ⟨d, hd, hdc⟩ := formatNat_digits _ _ _ hm
    exact (digitChar_ne d hd).2.2 hdc.symm
  cases i with
  | ofNat n =>
    cases j with
    | ofNat m =>
      have h1 := congrArg digitsValue h
      simp only [Itoa] at h1
      rw [digitsValue_formatNat _ _ (Nat.lt_succ_self n),
        digitsValue_formatNat _ _ (Nat.lt_succ_self m)] at h1
      rw [h1]
    | negSucc m => exact absurd h (hhead n _)
  | negSucc n =>
    cases j with
    | ofNat m => exact absurd h.symm (hhead m _)
    | negSucc m =>
      have h0 : formatNat (n + 2) (n + 1) = formatNat (m + 2) (m + 1) := by
        simpa [Itoa] using h
      have h1 := congrArg digitsValue h0
      rw [digitsValue_formatNat _ _ (Nat.lt_succ_self (n + 1)),
        digitsValue_formatNat _ _ (Nat.lt_succ_self (m + 1))] at h1
      have h2 : n = m := by omega
      rw [h2]

end Chars

/-! ## Parsing definitions: theorems -/

/-- What `PythonFilterDefinitionFromObject(id, obj)` does for every object: it fails with
the missing-property error exactly when `obj` has no `script` key, fails with the
property-type error exactly when `script` is present and is not a string, and otherwise
succeeds with `Id = id`, `Script` that string and `VenvSlot` the value of `venvSlot` when
that has the Go type `int`, and `0` when `venvSlot` is absent or of any other type, a
`float64` included. -/
theorem PythonFilterDefinitionFromObject_cases (c : Consts) (id : String) (obj : GoMap) :
    (PythonFilterDefinitionFromObject c id obj =
        Except.error (Error.WrappedErrorf c.jsonPropertyMissingError ["script"]) ↔
      obj.index "script" = none) ∧
    (PythonFilterDefinitionFromObject c id obj =
        Except.error (Error.WrappedErrorf c.jsonPropertyTypeError ["script", "string"]) ↔
      ∃ v, obj.index "script" = some v ∧ ∀ s, v ≠ GoValue.string s) ∧
    (∀ s, obj.index "script" = some (GoValue.string s) →
      PythonFilterDefinitionFromObject c id obj =
        Except.ok
          { Id := id, Script := s,
            VenvSlot :=
              match obj.index "venvSlot" with
              | some (GoValue.int n) => n
              | _ => 0 }) := by
  unfold PythonFilterDefinitionFromObject
  cases hs : obj.index "script" with
  | none => simp
  | some v =>
    cases v <;>
      simp [GoValue.assertString, GoMap.at, GoValue.intOrZero, GoValue.assertInt,
        FilterDefinitionFromObject]
    cases hv : obj.index "venvSlot" with
    | none => simp
    | some x => cases x <;> simp

/-- A `venvSlot` that is a `float64`, as `encoding/json` decodes every number, fails the
assertion `.(int)`: the slot is `0`. -/
theorem PythonFilterDefinitionFromObject_float_slot (c : Consts) (bits : Nat) :
    PythonFilterDefinitionFromObject c "hello"
        [("script", GoValue.string "main.py"), ("venvSlot", GoValue.float64 bits)] =
      Except.ok { Id := "hello", Script := "main.py", VenvSlot := 0 } := rfl

/-- C5: the code at a decoded declaration with the slot `2`. `json.Unmarshal` gives the
number as the `float64` holding `2`; the assertion `.(int)` fails on it and the definition
gets `VenvSlot = 0`, where the slot given is `2`. -/
theorem PythonFilterDefinitionFromObject_decoded_slot (c : Consts) :
    float64Whole 4611686018427387904 = some 2 ∧
    PythonFilterDefinitionFromObject c "hello"
        [("script", GoValue.string "main.py"),
         ("venvSlot", GoValue.float64 4611686018427387904)] =
      Except.ok { Id := "hello", Script := "main.py", VenvSlot := 0 } :=
  ⟨rfl, rfl⟩

/-- An object that holds the slot as a Go `int`, which no decoded object does, parses with
that slot. -/
theorem PythonFilterDefinitionFromObject_cases_witness :
    PythonFilterDefinitionFromObject exampleConsts "hello"
        [("script", GoValue.string "main.py"), ("venvSlot", GoValue.int 2)] =
      Except.ok { Id := "hello", Script := "main.py", VenvSlot := 2 } :=
  (PythonFilterDefinitionFromObject_cases exampleConsts "hello"
    [("script", GoValue.string "main.py"), ("venvSlot", GoValue.int 2)]).2.2 "main.py" rfl

/-- What `RemoteFilterDefinitionFromObject(id, obj)` does for every object: it fails
exactly when `obj` has no string `version` value; when `version` is a string it succeeds
with `Id = id`, that `Version`, `Url` the value of `url` when that is a string and
`StandardLibraryUrl` otherwise, and `VenvSlot` the value of `venvSlot` when that has the Go
type `int`, and `0` when it is absent or of any other type, a `float64` included. -/
theorem RemoteFilterDefinitionFromObject_cases (c : Consts) (id : String) (obj : GoMap) :
    ((∃ e, RemoteFilterDefinitionFromObject c id obj = Except.error e) ↔
      ∀ s, obj.index "version" ≠ some (GoValue.string s)) ∧
    (∀ version, obj.index "version" = some (GoValue.string version) →
      RemoteFilterDefinitionFromObject c id obj =
        Except.ok
          { Id := id, Version := version,
            Url :=
              match obj.index "url" with
              | some (GoValue.string url) => url
              | _ => c.StandardLibraryUrl,
            VenvSlot :=
              match obj.index "venvSlot" with
              | some (GoValue.int n) => n
              | _ => 0 }) := by
  unfold RemoteFilterDefinitionFromObject
  have hurl : (match (obj.at "url").assertString with
      | none => c.StandardLibraryUrl
      | some url => url) =
      (match obj.index "url" with
        | some (GoValue.string url) => url
        | _ => c.StandardLibraryUrl) := by
    unfold GoMap.at
    cases hu : obj.index "url" with
    | none => simp [GoValue.assertString]
    | some x => cases x <;> simp [GoValue.assertString]
  have hslot : (obj.at "venvSlot").intOrZero =
      (match obj.index "venvSlot" with
        | some (GoValue.int n) => n
        | _ => 0) := by
    unfold GoMap.at GoValue.intOrZero
    cases hu : obj.index "venvSlot" with
    | none => simp [GoValue.assertInt]
    | some x => cases x <;> simp [GoValue.assertInt]
  simp only [hurl, hslot]
  unfold GoMap.at
  cases hv : obj.index "version" with
  | none => simp [GoValue.assertString]
  | some v => cases v <;> simp [GoValue.assertString, FilterDefinitionFromObject]

/-- C6: the code at a decoded declaration with the slot `4`. `json.Unmarshal` gives the
number as the `float64` holding `4`; the assertion `.(int)` fails on it and the definition
gets `VenvSlot = 0`, where the slot given is `4`. Version and Url are read as stated. -/
theorem RemoteFilterDefinitionFromObject_decoded_slot (c : Consts) :
    float64Whole 4616189618054758400 = some 4 ∧
    RemoteFilterDefinitionFromObject c "hello"
        [("version", GoValue.string "1.0.0"),
         ("venvSlot", GoValue.float64 4616189618054758400)] =
      Except.ok { Id := "hello", Version := "1.0.0", Url := c.StandardLibraryUrl,
                  VenvSlot := 0 } :=
  ⟨rfl, rfl⟩

/-- A declaration with only a string version parses, with the standard library as its
source. -/
theorem RemoteFilterDefinitionFromObject_cases_witness :
    RemoteFilterDefinitionFromObject exampleConsts "hello"
        [("version", GoValue.string "1.0.0")] =
      Except.ok { Id := "hello", Version := "1.0.0",
                  Url := "github.com/Bedrock-OSS/regolith-filters", VenvSlot := 0 } :=
  (RemoteFilterDefinitionFromObject_cases exampleConsts "hello"
    [("version", GoValue.string "1.0.0")]).2 "1.0.0" rfl

/-! ## Running a remote filter: theorems -/

/-- C2: a `RemoteFilter` with `Disabled = true` returns success for every Url, lock state
and cache state; it leaves the outside world as it is and its only call is the log line: no
lock query, no cache check, no manifest read, no nested run. -/
theorem RemoteFilter_Run_disabled {W : Type} (L : Lib W) (f : RemoteFilter)
    (absoluteLocation : String) (w : W) (hDisabled : f.Disabled = true) :
    (f.Run L absoluteLocation w).value = none ∧
    (f.Run L absoluteLocation w).world = w ∧
    (f.Run L absoluteLocation w).trace =
      [Event.Log LogLevel.Info "Filter '%s' is disabled, skipping." [f.GetFriendlyName]] := by
  simp [RemoteFilter.Run, hDisabled]

/-- Witness for C2: a disabled filter from a foreign source, locked and not cached. -/
theorem RemoteFilter_Run_disabled_witness :
    ((exampleRemoteFilter "absent" "github.com/someone/filters" true).Run exampleLib
      "/project/tmp" (exampleWorld false)).value = none :=
  (RemoteFilter_Run_disabled exampleLib
    (exampleRemoteFilter "absent" "github.com/someone/filters" true)
    "/project/tmp" (exampleWorld false) rfl).1

/-- C1: an enabled `RemoteFilter` whose Url differs from `StandardLibraryUrl` returns the
safe-mode error when `IsUnlocked()` is false, whatever the cache state is; the lock query is
its only call, so it comes before any cache check, manifest read or nested run, and the
outside world stays as it is. -/
theorem RemoteFilter_Run_safe_mode {W : Type} (L : Lib W) (f : RemoteFilter)
    (absoluteLocation : String) (w : W) (hEnabled : f.Disabled = false)
    (hUrl : f.Definition.Url ≠ L.StandardLibraryUrl) (hLocked : L.IsUnlocked w = false) :
    (f.Run L absoluteLocation w).value = some safeModeError ∧
    (f.Run L absoluteLocation w).world = w ∧
    (f.Run L absoluteLocation w).trace = [Event.IsUnlocked] := by
  simp [RemoteFilter.Run, hEnabled, hUrl, hLocked]

/-- Witness for C1: a cached filter from a foreign source while safe mode is on. -/
theorem RemoteFilter_Run_safe_mode_witness :
    ((exampleRemoteFilter "hello" "github.com/someone/filters" false).Run exampleLib
      "/project/tmp" (exampleWorld false)).trace = [Event.IsUnlocked] :=
  (RemoteFilter_Run_safe_mode exampleLib
    (exampleRemoteFilter "hello" "github.com/someone/filters" false)
    "/project/tmp" (exampleWorld false) rfl (by decide) rfl).2.2

/-- C3: an enabled `RemoteFilter` that passes the trust gate (its Url is
`StandardLibraryUrl`, or the pipeline is unlocked) and whose download path does not exist
(`IsCached` is false) returns the not-installed error; it checks the download path, reads no
manifest, runs no nested filter and leaves the outside world as it is. -/
theorem RemoteFilter_Run_not_installed {W : Type} (L : Lib W) (f : RemoteFilter)
    (absoluteLocation : String) (w : W) (hEnabled : f.Disabled = false)
    (hTrust : f.Definition.Url = L.StandardLibraryUrl ∨ L.IsUnlocked w = true)
    (hNotCached : f.IsCached L w = false) :
    (f.Run L absoluteLocation w).value = some notInstalledError ∧
    (f.Run L absoluteLocation w).world = w ∧
    Event.Stat f.GetDownloadPath ∈ (f.Run L absoluteLocation w).trace ∧
    (∀ id, Event.SubfilterCollection id ∉ (f.Run L absoluteLocation w).trace) ∧
    (∀ index location, Event.NestedRun index location ∉ (f.Run L absoluteLocation w).trace) := by
  have hGate : ¬ (f.Definition.Url ≠ L.StandardLibraryUrl ∧ L.IsUnlocked w = false) := by
    rintro ⟨h1, h2⟩
    rcases hTrust with h | h
    · exact h1 h
    · rw [h] at h2; exact Bool.noConfusion h2
  simp only [RemoteFilter.Run, hEnabled, hNotCached, if_neg hGate]
  refine ⟨by simp, by simp, by simp, ?_, ?_⟩
  · intro id
    by_cases h : f.Definition.Url = L.StandardLibraryUrl <;> simp [h]
  · intro index location
    by_cases h : f.Definition.Url = L.StandardLibraryUrl <;> simp [h]

/-- Witness for C3: a standard-library filter that was never downloaded. -/
theorem RemoteFilter_Run_not_installed_witness :
    ((exampleRemoteFilter "absent" "github.com/Bedrock-OSS/regolith-filters" false).Run
      exampleLib "/project/tmp" (exampleWorld false)).value = some notInstalledError :=
  (RemoteFilter_Run_not_installed exampleLib
    (exampleRemoteFilter "absent" "github.com/Bedrock-OSS/regolith-filters" false)
    "/project/tmp" (exampleWorld false) rfl (Or.inl rfl) (by decide)).1

theorem nestedRuns_append (xs ys : List Event) :
    nestedRuns (xs ++ ys) = nestedRuns xs ++ nestedRuns ys := by
  induction xs with
  | nil => rfl
  | cons x xs ih => cases x <;> simp [nestedRuns, ih]

theorem worldAfter_cons {W : Type} (absolutePath : String) (filter : FilterRunner W)
    (rest : List (FilterRunner W)) (w : W) :
    worldAfter absolutePath (filter :: rest) w =
      worldAfter absolutePath rest (filter.Run absolutePath w).2 := rfl

theorem nestedError_zero {W : Type} (absolutePath : String) (filter : FilterRunner W)
    (rest : List (FilterRunner W)) (w : W) :
    nestedError absolutePath (filter :: rest) w 0 = (filter.Run absolutePath w).1 := by
  simp [nestedError, worldAfter]

theorem nestedError_succ {W : Type} (absolutePath : String) (filter : FilterRunner W)
    (rest : List (FilterRunner W)) (w : W) (k : Nat) :
    nestedError absolutePath (filter :: rest) w (k + 1) =
      nestedError absolutePath rest (filter.Run absolutePath w).2 k := by
  simp [nestedError, worldAfter_cons]

/-- The loop stops at the first nested filter that fails: the filters up to it ran, in
order, and its error is returned. -/
theorem runFilters_first_failure {W : Type} (absolutePath : String) :
    ∀ (filters : List (FilterRunner W)) (index : Nat) (w : W) (k : Nat) (err : Error),
      (∀ j, j < k → nestedError absolutePath filters w j = none) →
      nestedError absolutePath filters w k = some err →
      (RemoteFilter.runFilters absolutePath index filters w).value = some err ∧
      nestedRuns (RemoteFilter.runFilters absolutePath index filters w).trace =
        (List.range (k + 1)).map (fun j => (index + j, absolutePath)) ∧
      (RemoteFilter.runFilters absolutePath index filters w).world =
        worldAfter absolutePath (filters.take (k + 1)) w := by
  intro filters
  induction filters with
  | nil => intro index w k err _ hk; simp [nestedError] at hk
  | cons filter rest ih =>
    intro index w k err hBefore hk
    cases k with
    | zero =>
      rw [nestedError_zero] at hk
      cases hrun : filter.Run absolutePath w with
      | mk e w1 =>
        rw [hrun] at hk
        simp only at hk
        subst hk
        simp [RemoteFilter.runFilters, hrun, nestedRuns, worldAfter, List.range_succ]
    | succ k =>
      have h0 := hBefore 0 (Nat.succ_pos k)
      rw [nestedError_zero] at h0
      rw [nestedError_succ] at hk
      cases hrun : filter.Run absolutePath w with
      | mk e w1 =>
        rw [hrun] at h0 hk
        simp only at h0 hk
        subst h0
        have hBefore1 : ∀ j, j < k → nestedError absolutePath rest w1 j = none := by
          intro j hj
          have h := hBefore (j + 1) (Nat.succ_lt_succ hj)
          rw [nestedError_succ, hrun] at h
          exact h
        obtain ⟨hv, ht, hw⟩ := ih (index + 1) w1 k err hBefore1 hk
        refine ⟨?_, ?_, ?_⟩
        · simp [RemoteFilter.runFilters, hrun, hv]
        · simp only [RemoteFilter.runFilters, hrun, nestedRuns, ht]
          rw [List.range_succ_eq_map (k + 1)]
          simp [List.map_map, Function.comp_def, Nat.add_assoc, Nat.add_comm 1]
        · simp only [RemoteFilter.runFilters, hrun, hw]
          simp [worldAfter, hrun]

/-- When no nested filter fails the loop runs all of them, in order, and returns success. -/
theorem runFilters_all_succeed {W : Type} (absolutePath : String) :
    ∀ (filters : List (FilterRunner W)) (index : Nat) (w : W),
      (∀ j, nestedError absolutePath filters w j = none) →
      (RemoteFilter.runFilters absolutePath index filters w).value = none ∧
      nestedRuns (RemoteFilter.runFilters absolutePath index filters w).trace =
        (List.range filters.length).map (fun j => (index + j, absolutePath)) ∧
      (RemoteFilter.runFilters absolutePath index filters w).world =
        worldAfter absolutePath filters w := by
  intro filters
  induction filters with
  | nil => intro index w _; simp [RemoteFilter.runFilters, nestedRuns, worldAfter]
  | cons filter rest ih =>
    intro index w hAll
    have h0 := hAll 0
    rw [nestedError_zero] at h0
    cases hrun : filter.Run absolutePath w with
    | mk e w1 =>
      rw [hrun] at h0
      simp only at h0
      subst h0
      have hAll1 : ∀ j, nestedError absolutePath rest w1 j = none := by
        intro j
        have h := hAll (j + 1)
        rw [nestedError_succ, hrun] at h
        exact h
      obtain ⟨hv, ht, hw⟩ := ih (index + 1) w1 hAll1
      refine ⟨?_, ?_, ?_⟩
      · simp [RemoteFilter.runFilters, hrun, hv]
      · simp only [RemoteFilter.runFilters, hrun, nestedRuns, ht, List.length_cons]
        rw [List.range_succ_eq_map rest.length]
        simp [List.map_map, Function.comp_def, Nat.add_assoc, Nat.add_comm 1]
      · simp only [RemoteFilter.runFilters, hrun, hw]
        simp [worldAfter, hrun]

/-- What `RemoteFilter.Run` does once the disabled, trust and cache gates are passed and the
manifest is read: the outcome is that of the loop over the nested filters, between the
calls made before it and the deferred log line. -/
theorem RemoteFilter_Run_passed_gates {W : Type} (L : Lib W) (f : RemoteFilter)
    (absoluteLocation : String) (w : W) (filters : List (FilterRunner W))
    (hEnabled : f.Disabled = false)
    (hTrust : f.Definition.Url = L.StandardLibraryUrl ∨ L.IsUnlocked w = true)
    (hCached : f.IsCached L w = true)
    (hManifest : L.SubfilterCollection f w = Except.ok filters) :
    (f.Run L absoluteLocation w).value =
      (RemoteFilter.runFilters
        (filepath.AbsOrEmpty L f.GetDownloadPath w) 0 filters w).value ∧
    (f.Run L absoluteLocation w).world =
      (RemoteFilter.runFilters
        (filepath.AbsOrEmpty L f.GetDownloadPath w) 0 filters w).world ∧
    nestedRuns (f.Run L absoluteLocation w).trace =
      nestedRuns (RemoteFilter.runFilters
        (filepath.AbsOrEmpty L f.GetDownloadPath w) 0 filters w).trace := by
  have hGate : ¬ (f.Definition.Url ≠ L.StandardLibraryUrl ∧ L.IsUnlocked w = false) := by
    rintro ⟨h1, h2⟩
    rcases hTrust with h | h
    · exact h1 h
    · rw [h] at h2; exact Bool.noConfusion h2
  simp only [RemoteFilter.Run, hEnabled, hCached, if_neg hGate, hManifest]
  refine ⟨by simp, by simp, ?_⟩
  by_cases h : f.Definition.Url = L.StandardLibraryUrl <;>
    simp [h, nestedRuns_append, nestedRuns]

/-- C7: once the disabled, trust and cache gates are passed and the manifest is read as
`filters`, `RemoteFilter.Run` runs the nested filters in declared order, each against the
absolute form of the download path. If the filter at position `k` is the first whose `Run`
returns an error, exactly the filters at positions `0..k` run, once each and in order, the
later ones never run, and `Run` returns that error as it is. If no nested filter fails, all
of them run once each, in order, and `Run` returns success. -/
theorem RemoteFilter_Run_nested_order {W : Type} (L : Lib W) (f : RemoteFilter)
    (absoluteLocation : String) (w : W) (filters : List (FilterRunner W))
    (hEnabled : f.Disabled = false)
    (hTrust : f.Definition.Url = L.StandardLibraryUrl ∨ L.IsUnlocked w = true)
    (hCached : f.IsCached L w = true)
    (hManifest : L.SubfilterCollection f w = Except.ok filters) :
    (∀ k err,
      (∀ j, j < k →
        nestedError (filepath.AbsOrEmpty L f.GetDownloadPath w) filters w j = none) →
      nestedError (filepath.AbsOrEmpty L f.GetDownloadPath w) filters w k = some err →
      (f.Run L absoluteLocation w).value = some err ∧
      nestedRuns (f.Run L absoluteLocation w).trace =
        (List.range (k + 1)).map
          (fun j => (j, filepath.AbsOrEmpty L f.GetDownloadPath w)) ∧
      (f.Run L absoluteLocation w).world =
        worldAfter (filepath.AbsOrEmpty L f.GetDownloadPath w) (filters.take (k + 1)) w) ∧
    ((∀ j, nestedError (filepath.AbsOrEmpty L f.GetDownloadPath w) filters w j = none) →
      (f.Run L absoluteLocation w).value = none ∧
      nestedRuns (f.Run L absoluteLocation w).trace =
        (List.range filters.length).map
          (fun j => (j, filepath.AbsOrEmpty L f.GetDownloadPath w)) ∧
      (f.Run L absoluteLocation w).world =
        worldAfter (filepath.AbsOrEmpty L f.GetDownloadPath w) filters w) := by
  obtain ⟨hv, hw, ht⟩ :=
    RemoteFilter_Run_passed_gates L f absoluteLocation w filters hEnabled hTrust hCached
      hManifest
  rw [hv, hw, ht]
  constructor
  · intro k err hBefore hk
    have h := runFilters_first_failure (filepath.AbsOrEmpty L f.GetDownloadPath w)
      filters 0 w k err hBefore hk
    simpa using h
  · intro hAll
    have h := runFilters_all_succeed (filepath.AbsOrEmpty L f.GetDownloadPath w)
      filters 0 w hAll
    simpa using h

/-- Witness for C7: of three nested filters the second fails; the first two run, in order,
against the absolute download path, and the error of the second is returned. -/
theorem RemoteFilter_Run_nested_order_witness :
    ((exampleRemoteFilter "hello" "github.com/Bedrock-OSS/regolith-filters" false).Run
      exampleLib "/project/tmp" (exampleWorld false)).value =
        some (Error.external "second") ∧
    nestedRuns ((exampleRemoteFilter "hello" "github.com/Bedrock-OSS/regolith-filters"
      false).Run exampleLib "/project/tmp" (exampleWorld false)).trace =
        [(0, "/project/.regolith/cache/filters/hello"),
         (1, "/project/.regolith/cache/filters/hello")] :=
  have h := (RemoteFilter_Run_nested_order exampleLib
    (exampleRemoteFilter "hello" "github.com/Bedrock-OSS/regolith-filters" false)
    "/project/tmp" (exampleWorld false)
    [exampleNested "first" false, exampleNested "second" true, exampleNested "third" false]
    rfl (Or.inl rfl) (by decide) rfl).1 1 (Error.external "second")
    (fun j hj => by
      have hj0 : j = 0 := by omega
      subst hj0
      rfl)
    rfl
  ⟨h.1, h.2.1⟩

/-! ## Downloading: theorems -/

/-- C10: when the download path exists (`IsInstalled` is true), `Download(false)` returns
success and leaves the outside world, cached content included, as it is: it checks the
download path, logs the warning and makes no other call, so it neither uninstalls nor
resolves the download URL nor fetches. -/
theorem RemoteFilterDefinition_Download_installed {W : Type} (L : Lib W)
    (i : RemoteFilterDefinition) (w : W) (hInstalled : i.IsInstalled L w = true) :
    (i.Download L false w).value = none ∧
    (i.Download L false w).world = w ∧
    (i.Download L false w).trace =
      [Event.Stat i.GetDownloadPath,
       Event.Log LogLevel.Warn
         "Filter %q already installed, skipping. Run with '-f' to force." [i.Id]] ∧
    (∀ p, Event.RemoveAll p ∉ (i.Download L false w).trace) ∧
    (∀ url id version flag,
      Event.GetRemoteFilterDownloadRef url id version flag ∉ (i.Download L false w).trace) ∧
    (∀ dst src, Event.GetterGet dst src ∉ (i.Download L false w).trace) := by
  simp [RemoteFilterDefinition.Download, hInstalled]

/-- Witness for C10: the cached filter `hello` is not downloaded again. -/
theorem RemoteFilterDefinition_Download_installed_witness :
    (RemoteFilterDefinition.Download exampleLib
      { Id := "hello", Url := "github.com/Bedrock-OSS/regolith-filters",
        Version := "1.0.0", VenvSlot := 0 } false (exampleWorld false)).value = none :=
  (RemoteFilterDefinition_Download_installed exampleLib
    { Id := "hello", Url := "github.com/Bedrock-OSS/regolith-filters",
      Version := "1.0.0", VenvSlot := 0 } (exampleWorld false) (by decide)).1

/-! ## Running a Python filter: theorems -/

theorem subprocessArgs_append (xs ys : List Event) :
    subprocessArgs (xs ++ ys) = subprocessArgs xs ++ subprocessArgs ys := by
  induction xs with
  | nil => rfl
  | cons x xs ih => cases x <;> simp [subprocessArgs, ih]

theorem subprocessArgs_findPythonIn {W : Type} (L : Lib W) (w : W) (cs : List String) :
    subprocessArgs (findPythonIn L w cs).1 = [] := by
  induction cs with
  | nil => rfl
  | cons c cs ih =>
    unfold findPythonIn
    cases L.LookPath c w <;> simp [subprocessArgs, ih]

theorem subprocessArgs_findPython {W : Type} (L : Lib W) (w : W) :
    subprocessArgs (findPython L w).trace = [] := by
  unfold findPython
  have h := subprocessArgs_findPythonIn L w ["python3", "python"]
  generalize findPythonIn L w ["python3", "python"] = r at h
  obtain ⟨t, c⟩ := r
  cases c <;> simpa using h

/-- The rest of `run` is one call of `RunSubProcess` with the argument vector of the spec:
the world after it is the world the call leaves, its value is the wrapped error of the call
(or `nil`), and the call is what the trace records. -/
theorem runCommand_call {W : Type} (L : Lib W) (f : PythonFilter)
    (context : RunContext W) (pythonCommand : String) (w : W) :
    f.runCommand L context
        (filepath.Join [context.AbsoluteLocation, f.Definition.Script]) pythonCommand w =
      { value :=
          (L.RunSubProcess pythonCommand (f.specArgs L context) context.AbsoluteLocation
            (L.GetAbsoluteWorkingDirectory context.DotRegolithPath w)
            (L.ShortFilterName f.Id) w).1.map
            (fun err => Error.WrapError (some err) "Failed to run Python script."),
        world :=
          (L.RunSubProcess pythonCommand (f.specArgs L context) context.AbsoluteLocation
            (L.GetAbsoluteWorkingDirectory context.DotRegolithPath w)
            (L.ShortFilterName f.Id) w).2,
        trace :=
          [Event.RunSubProcess pythonCommand (f.specArgs L context) context.AbsoluteLocation
            (L.GetAbsoluteWorkingDirectory context.DotRegolithPath w)
            (L.ShortFilterName f.Id)] } := by
  have hargs : (if f.Settings.length = 0 then
        ["-u", filepath.Join [context.AbsoluteLocation, f.Definition.Script]] ++ f.Arguments
      else
        ["-u", filepath.Join [context.AbsoluteLocation, f.Definition.Script],
          (L.jsonMarshal f.Settings).1] ++ f.Arguments) = f.specArgs L context := by
    unfold PythonFilter.specArgs
    cases f.Settings <;> simp
  unfold PythonFilter.runCommand
  simp only [hargs]
  generalize L.RunSubProcess pythonCommand (f.specArgs L context) context.AbsoluteLocation
    (L.GetAbsoluteWorkingDirectory context.DotRegolithPath w) (L.ShortFilterName f.Id) w = r
  obtain ⟨e, w1⟩ := r
  cases e <;> rfl

/-- The rest of `run` spawns one subprocess, with the argument vector of the spec. -/
theorem subprocessArgs_runCommand {W : Type} (L : Lib W) (f : PythonFilter)
    (context : RunContext W) (pythonCommand : String) (w : W) :
    subprocessArgs (f.runCommand L context
      (filepath.Join [context.AbsoluteLocation, f.Definition.Script]) pythonCommand w).trace =
      [f.specArgs L context] := by
  rw [runCommand_call]
  rfl

/-- The subprocesses of `run`: none when no interpreter is found or the environment path
does not resolve, and otherwise one, with the argument vector of the spec. -/
theorem subprocessArgs_run {W : Type} (L : Lib W) (f : PythonFilter)
    (context : RunContext W) (w : W) :
    subprocessArgs (f.run L context w).trace =
      match (findPython L w).value with
      | Except.error _ => []
      | Except.ok _ =>
        if needsVenv L
            (filepath.Dir (filepath.Join [context.AbsoluteLocation, f.Definition.Script])) w
        then
          match f.Definition.resolveVenvPath L context.DotRegolithPath w with
          | Except.error _ => []
          | Except.ok _ => [f.specArgs L context]
        else [f.specArgs L context] := by
  have hfind := subprocessArgs_findPython L w
  unfold PythonFilter.run
  generalize findPython L w = found at hfind
  obtain ⟨value, world, trace⟩ := found
  simp only at hfind
  cases value with
  | error err => simpa using hfind
  | ok pythonCommand =>
    simp only
    split
    · cases f.Definition.resolveVenvPath L context.DotRegolithPath w with
      | error err => simp [subprocessArgs_append, hfind, subprocessArgs]
      | ok venvPath =>
        simp [subprocessArgs_append, hfind, subprocessArgs, subprocessArgs_runCommand]
    · simp [subprocessArgs_append, hfind, subprocessArgs, subprocessArgs_runCommand]

/-- When `run` spawns no subprocess it leaves the outside world as it is. -/
theorem run_world_of_no_subprocess {W : Type} (L : Lib W) (f : PythonFilter)
    (context : RunContext W) (w : W)
    (h : subprocessArgs (f.run L context w).trace = []) : (f.run L context w).world = w := by
  rw [subprocessArgs_run] at h
  cases hv : (findPython L w).value with
  | error err => simp [PythonFilter.run, hv]
  | ok pythonCommand =>
    rw [hv] at h
    simp only at h
    by_cases hneeds : needsVenv L
        (filepath.Dir (filepath.Join [context.AbsoluteLocation, f.Definition.Script])) w = true
    · rw [if_pos hneeds] at h
      cases hr : f.Definition.resolveVenvPath L context.DotRegolithPath w with
      | error err => simp [PythonFilter.run, hv, hneeds, hr]
      | ok venvPath => rw [hr] at h; simp at h
    · rw [if_neg hneeds] at h
      simp at h

/-- C4: `PythonFilter.run` spawns at most one subprocess, and the argument vector it passes
is `-u`, the script path (the absolute location of the context joined with
`Definition.Script`), then one argument with the JSON text of `Settings` when settings are
present, then the `Arguments` of the instance in their order, and nothing else. The
subprocess is spawned whenever an interpreter is found and, for a filter with a
requirements file, the environment path resolves: the world after `run` is then the world
that `RunSubProcess`, called with exactly this argument vector, leaves, and the value of
`run` is the wrapped error of that call, or success. When no subprocess is spawned the
outside world stays as it is. -/
theorem PythonFilter_run_args {W : Type} (L : Lib W) (f : PythonFilter)
    (context : RunContext W) (w : W) :
    (subprocessArgs (f.run L context w).trace = [] ∨
      subprocessArgs (f.run L context w).trace = [f.specArgs L context]) ∧
    (∀ pythonCommand, (findPython L w).value = Except.ok pythonCommand →
      (needsVenv L
          (filepath.Dir (filepath.Join [context.AbsoluteLocation, f.Definition.Script])) w =
          false ∨
        ∃ venvPath,
          f.Definition.resolveVenvPath L context.DotRegolithPath w = Except.ok venvPath) →
      subprocessArgs (f.run L context w).trace = [f.specArgs L context]) ∧
    (f.Settings = [] →
      f.specArgs L context =
        "-u" :: filepath.Join [context.AbsoluteLocation, f.Definition.Script] ::
          f.Arguments) ∧
    (f.Settings ≠ [] →
      f.specArgs L context =
        "-u" :: filepath.Join [context.AbsoluteLocation, f.Definition.Script] ::
          (L.jsonMarshal f.Settings).1 :: f.Arguments) ∧
    (∀ pythonCommand, (findPython L w).value = Except.ok pythonCommand →
      needsVenv L
        (filepath.Dir (filepath.Join [context.AbsoluteLocation, f.Definition.Script])) w =
        false →
      (f.run L context w).world =
        (L.RunSubProcess pythonCommand (f.specArgs L context) context.AbsoluteLocation
          (L.GetAbsoluteWorkingDirectory context.DotRegolithPath w)
          (L.ShortFilterName f.Id) w).2 ∧
      (f.run L context w).value =
        (L.RunSubProcess pythonCommand (f.specArgs L context) context.AbsoluteLocation
          (L.GetAbsoluteWorkingDirectory context.DotRegolithPath w)
          (L.ShortFilterName f.Id) w).1.map
          (fun err => Error.WrapError (some err) "Failed to run Python script.") ∧
      Event.RunSubProcess pythonCommand (f.specArgs L context) context.AbsoluteLocation
          (L.GetAbsoluteWorkingDirectory context.DotRegolithPath w)
          (L.ShortFilterName f.Id) ∈ (f.run L context w).trace) ∧
    (∀ pythonCommand venvPath, (findPython L w).value = Except.ok pythonCommand →
      needsVenv L
        (filepath.Dir (filepath.Join [context.AbsoluteLocation, f.Definition.Script])) w =
        true →
      f.Definition.resolveVenvPath L context.DotRegolithPath w = Except.ok venvPath →
      (f.run L context w).world =
        (L.RunSubProcess (filepath.Join [venvPath, L.venvScriptsPath, "python" ++ L.exeSuffix])
          (f.specArgs L context) context.AbsoluteLocation
          (L.GetAbsoluteWorkingDirectory context.DotRegolithPath w)
          (L.ShortFilterName f.Id) w).2 ∧
      (f.run L context w).value =
        (L.RunSubProcess (filepath.Join [venvPath, L.venvScriptsPath, "python" ++ L.exeSuffix])
          (f.specArgs L context) context.AbsoluteLocation
          (L.GetAbsoluteWorkingDirectory context.DotRegolithPath w)
          (L.ShortFilterName f.Id) w).1.map
          (fun err => Error.WrapError (some err) "Failed to run Python script.") ∧
      Event.RunSubProcess
          (filepath.Join [venvPath, L.venvScriptsPath, "python" ++ L.exeSuffix])
          (f.specArgs L context) context.AbsoluteLocation
          (L.GetAbsoluteWorkingDirectory context.DotRegolithPath w)
          (L.ShortFilterName f.Id) ∈ (f.run L context w).trace) ∧
    (subprocessArgs (f.run L context w).trace = [] → (f.run L context w).world = w) := by
  have hrun := subprocessArgs_run L f context w
  refine ⟨?_, ?_, ?_, ?_, ?_, ?_, run_world_of_no_subprocess L f context w⟩
  · rw [hrun]
    cases (findPython L w).value with
    | error err => left; rfl
    | ok pythonCommand =>
      simp only
      split
      · cases f.Definition.resolveVenvPath L context.DotRegolithPath w with
        | error err => left; rfl
        | ok venvPath => right; rfl
      · right; rfl
  · intro pythonCommand hv hvenv
    rw [hrun, hv]
    simp only
    split
    · rename_i hneeds
      rcases hvenv with h | ⟨venvPath, h⟩
      · rw [h] at hneeds; exact Bool.noConfusion hneeds
      · rw [h]
    · rfl
  · intro h
    simp [PythonFilter.specArgs, h]
  · intro h
    unfold PythonFilter.specArgs
    cases hS : f.Settings with
    | nil => exact absurd hS h
    | cons kv rest => simp
  · intro pythonCommand hv hneeds
    simp [PythonFilter.run, hv, hneeds, runCommand_call]
  · intro pythonCommand venvPath hv hneeds hr
    simp [PythonFilter.run, hv, hneeds, hr, runCommand_call]

/-- Witness for C4: the script filter `main.py` with the decoded settings `x = 1` and two
arguments; the process that ran got `-u`, the script path, the JSON text and the two
arguments. -/
theorem PythonFilter_run_args_witness :
    ((examplePythonFilter [("x", GoValue.float64 4607182418800017408)] ["a", "b"]).run
      exampleLib exampleContext (exampleWorld false)).world.ran =
      [("python3", ["-u", "/project/filters/hello/main.py", "\x7b\"x\":1\x7d", "a", "b"])] ∧
    subprocessArgs ((examplePythonFilter [("x", GoValue.float64 4607182418800017408)]
      ["a", "b"]).run exampleLib exampleContext (exampleWorld false)).trace =
      [["-u", "/project/filters/hello/main.py", "\x7b\"x\":1\x7d", "a", "b"]] :=
  have h := PythonFilter_run_args exampleLib
    (examplePythonFilter [("x", GoValue.float64 4607182418800017408)] ["a", "b"])
    exampleContext (exampleWorld false)
  ⟨(congrArg ExampleWorld.ran (h.2.2.2.2.1 "python3" rfl rfl).1).trans rfl,
    h.2.1 "python3" rfl (Or.inl rfl)⟩

/-! ## Cache and environment paths: theorems -/

/-- Making a directory text followed by an ordinary path absolute keeps the ordinary path
as the end of the result: either `os.Getwd` fails for every such path, or what comes before
the ordinary path depends on the directory text only. -/
theorem Abs_dir_append {W : Type} (L : Lib W) (w : W) (s : List Char)
    (hs : s = [] ∨ ∃ t, s = t ++ ['/']) :
    (∃ err, ∀ p, Chars.plainPath p →
      filepath.Abs L (String.mk (s ++ p)) w = Except.error err) ∨
    (∃ dir, ∀ p, Chars.plainPath p →
      filepath.Abs L (String.mk (s ++ p)) w = Except.ok (String.mk (dir ++ p))) := by
  by_cases hr : s.head? = some '/'
  · right
    refine ⟨Chars.cleanedDir s, ?_⟩
    intro p hp
    have habs : Chars.IsAbs (s ++ p) = true := by
      cases s with
      | nil => simp at hr
      | cons c cs => simpa [Chars.IsAbs] using hr
    simp [filepath.Abs, habs, Chars.Clean_dir_append s p hs hp]
  · have habs : ∀ p, Chars.plainPath p → Chars.IsAbs (s ++ p) = false := by
      intro p hp
      cases s with
      | nil => simpa [Chars.IsAbs] using Chars.plainPath_head p hp
      | cons c cs => simpa [Chars.IsAbs] using hr
    cases hg : L.Getwd w with
    | error err =>
      left
      refine ⟨err, ?_⟩
      intro p hp
      simp [filepath.Abs, habs p hp, hg]
    | ok wd =>
      right
      by_cases hwd : wd.data = []
      · refine ⟨Chars.cleanedDir s, ?_⟩
        intro p hp
        have hne : s ++ p ≠ [] := by simp [Chars.plainPath_ne_nil p hp]
        have hj : Chars.Join [wd.data, s ++ p] = Chars.cleanedDir s ++ p := by
          simp only [Chars.Join, hwd, if_true, if_neg hne, Chars.joinSlash]
          exact Chars.Clean_dir_append s p hs hp
        simp [filepath.Abs, habs p hp, hg, filepath.Join, hj]
      · refine ⟨Chars.cleanedDir (wd.data ++ '/' :: s), ?_⟩
        intro p hp
        have hdir : wd.data ++ '/' :: s = [] ∨ ∃ t, wd.data ++ '/' :: s = t ++ ['/'] := by
          right
          rcases hs with h | ⟨t, h⟩
          · exact ⟨wd.data, by simp [h]⟩
          · exact ⟨wd.data ++ '/' :: t, by simp [h]⟩
        have hj : Chars.Join [wd.data, s ++ p] =
            Chars.cleanedDir (wd.data ++ '/' :: s) ++ p := by
          have h := Chars.Clean_dir_append (wd.data ++ '/' :: s) p hdir hp
          simp only [List.append_assoc, List.cons_append] at h
          simp only [Chars.Join, if_neg hwd, Chars.joinSlash]
          exact h
        simp [filepath.Abs, habs p hp, hg, filepath.Join, hj]

/-- For a fixed root and outside world, `resolveVenvPath` either fails for every slot or
returns, for every slot, one and the same directory text followed by the decimal slot. -/
theorem resolveVenvPath_shape {W : Type} (L : Lib W) (dotRegolithPath : String) (w : W) :
    (∃ err, ∀ f : PythonFilterDefinition,
      f.resolveVenvPath L dotRegolithPath w =
        Except.error (Error.WrapErrorf (some err) "Unable to create venv for VenvSlot %v."
          [strconv.Itoa f.VenvSlot])) ∨
    (∃ dir, ∀ f : PythonFilterDefinition,
      f.resolveVenvPath L dotRegolithPath w =
        Except.ok (String.mk (dir ++ Chars.Itoa f.VenvSlot))) := by
  obtain ⟨dir, hdir, hjoin⟩ :=
    Chars.Join_pair_plain (filepath.Join [dotRegolithPath, "cache/venvs"]).data
  have hJ : ∀ f : PythonFilterDefinition,
      filepath.Join [filepath.Join [dotRegolithPath, "cache/venvs"],
        strconv.Itoa f.VenvSlot] = String.mk (dir ++ Chars.Itoa f.VenvSlot) := by
    intro f
    have h := hjoin (Chars.Itoa f.VenvSlot) (Chars.Itoa_plainPath f.VenvSlot)
    simp only [filepath.Join, strconv.Itoa, List.map] at h ⊢
    rw [h]
  rcases Abs_dir_append L w dir hdir with ⟨err, h⟩ | ⟨dir1, h⟩
  · left
    refine ⟨err, ?_⟩
    intro f
    simp only [PythonFilterDefinition.resolveVenvPath, hJ f,
      h _ (Chars.Itoa_plainPath f.VenvSlot)]
  · right
    refine ⟨dir1, ?_⟩
    intro f
    simp only [PythonFilterDefinition.resolveVenvPath, hJ f,
      h _ (Chars.Itoa_plainPath f.VenvSlot)]

/-- C8: `resolveVenvPath` returns what `filepath.Abs` makes of
`root/cache/venvs/<decimal VenvSlot>`; it returns a path whenever the working directory can
be read, and that path ends in the decimal slot; definitions with the same slot get the
same result for the same root; and for a fixed root two definitions with different slots
never resolve to the same path. -/
theorem PythonFilterDefinition_resolveVenvPath_injective {W : Type} (L : Lib W)
    (dotRegolithPath : String) (w : W) (f g : PythonFilterDefinition) :
    (∀ p, f.resolveVenvPath L dotRegolithPath w = Except.ok p ↔
      filepath.Abs L
        (filepath.Join [filepath.Join [dotRegolithPath, "cache/venvs"],
          strconv.Itoa f.VenvSlot]) w = Except.ok p) ∧
    (∀ wd, L.Getwd w = Except.ok wd →
      ∃ p, f.resolveVenvPath L dotRegolithPath w = Except.ok p) ∧
    (∀ p, f.resolveVenvPath L dotRegolithPath w = Except.ok p →
      (strconv.Itoa f.VenvSlot).data <:+ p.data) ∧
    (f.VenvSlot = g.VenvSlot →
      f.resolveVenvPath L dotRegolithPath w = g.resolveVenvPath L dotRegolithPath w) ∧
    (f.VenvSlot ≠ g.VenvSlot → ∀ p q,
      f.resolveVenvPath L dotRegolithPath w = Except.ok p →
      g.resolveVenvPath L dotRegolithPath w = Except.ok q → p ≠ q) := by
  refine ⟨?_, ?_, ?_, ?_, ?_⟩
  · intro p
    unfold PythonFilterDefinition.resolveVenvPath
    cases filepath.Abs L
      (filepath.Join [filepath.Join [dotRegolithPath, "cache/venvs"],
        strconv.Itoa f.VenvSlot]) w <;> simp
  · intro wd hwd
    unfold PythonFilterDefinition.resolveVenvPath filepath.Abs
    split_ifs <;> simp [hwd]
  · intro p hp
    rcases resolveVenvPath_shape L dotRegolithPath w with ⟨err, h⟩ | ⟨dir, h⟩
    · rw [h f] at hp; exact absurd hp (by simp)
    · rw [h f] at hp
      have hp1 : String.mk (dir ++ Chars.Itoa f.VenvSlot) = p := by simpa using hp
      rw [← hp1]
      exact ⟨dir, rfl⟩
  · intro h
    unfold PythonFilterDefinition.resolveVenvPath
    rw [h]
  · intro hne p q hp hq hpq
    rcases resolveVenvPath_shape L dotRegolithPath w with ⟨err, h⟩ | ⟨dir, h⟩
    · rw [h f] at hp; exact absurd hp (by simp)
    · rw [h f] at hp
      rw [h g] at hq
      have hp1 : String.mk (dir ++ Chars.Itoa f.VenvSlot) = p := by simpa using hp
      have hq1 : String.mk (dir ++ Chars.Itoa g.VenvSlot) = q := by simpa using hq
      rw [← hp1, ← hq1] at hpq
      have h1 : dir ++ Chars.Itoa f.VenvSlot = dir ++ Chars.Itoa g.VenvSlot :=
        congrArg String.data hpq
      exact hne (Chars.Itoa_injective _ _ (List.append_cancel_left h1))

/-- Witness for C8: slots 1 and 12 under the hidden root `.regolith` of `/project`. -/
theorem PythonFilterDefinition_resolveVenvPath_injective_witness :
    PythonFilterDefinition.resolveVenvPath exampleLib
        { Id := "first", Script := "main.py", VenvSlot := 1 } ".regolith"
        (exampleWorld false) = Except.ok "/project/.regolith/cache/venvs/1" ∧
    PythonFilterDefinition.resolveVenvPath exampleLib
        { Id := "second", Script := "main.py", VenvSlot := 12 } ".regolith"
        (exampleWorld false) = Except.ok "/project/.regolith/cache/venvs/12" ∧
    ("/project/.regolith/cache/venvs/1" : String) ≠ "/project/.regolith/cache/venvs/12" :=
  ⟨rfl, rfl,
    (PythonFilterDefinition_resolveVenvPath_injective exampleLib ".regolith"
      (exampleWorld false)
      { Id := "first", Script := "main.py", VenvSlot := 1 }
      { Id := "second", Script := "main.py", VenvSlot := 12 }).2.2.2.2 (by decide)
      "/project/.regolith/cache/venvs/1" "/project/.regolith/cache/venvs/12" rfl rfl⟩

/-- C9, as stated, fails: for the Id `../../x` both `GetDownloadPath` functions return
`.regolith/x`, which is not `.regolith/cache/filters/../../x` and does not lie inside
`.regolith/cache/filters`. -/
theorem GetDownloadPath_outside_cache :
    RemoteFilterDefinition.GetDownloadPath
        { Id := "../../x", Url := "github.com/Bedrock-OSS/regolith-filters",
          Version := "1.0.0", VenvSlot := 0 } = ".regolith/x" ∧
    RemoteFilter.GetDownloadPath
        (exampleRemoteFilter "../../x" "github.com/Bedrock-OSS/regolith-filters" false) =
      ".regolith/x" ∧
    (".regolith/x" : String) ≠ ".regolith/cache/filters/" ++ "../../x" ∧
    (".regolith/cache/filters/".data.isPrefixOf (".regolith/x" : String).data) = false := by
  refine ⟨rfl, rfl, by decide, rfl⟩

/-- C9, amended: `RemoteFilterDefinition.GetDownloadPath` and `RemoteFilter.GetDownloadPath`
return the same path for the same Id, namely `filepath.Join(".regolith/cache/filters", Id)`,
whatever Url and Version are; and for every Id made of ordinary path elements (no empty, `.`
or `..` element) that path is `.regolith/cache/filters/<Id>`. -/
theorem GetDownloadPath_by_id (f : RemoteFilter) (i : RemoteFilterDefinition)
    (hId : f.Id = i.Id) :
    f.GetDownloadPath = i.GetDownloadPath ∧
    i.GetDownloadPath = filepath.Join [".regolith/cache/filters", i.Id] ∧
    (Chars.plainPath i.Id.data →
      i.GetDownloadPath = ".regolith/cache/filters/" ++ i.Id ∧
      f.GetDownloadPath = ".regolith/cache/filters/" ++ f.Id) := by
  have hsame : f.GetDownloadPath = i.GetDownloadPath := by
    simp [RemoteFilter.GetDownloadPath, RemoteFilterDefinition.GetDownloadPath, hId]
  refine ⟨hsame, rfl, ?_⟩
  intro hp
  have hpath : i.GetDownloadPath = ".regolith/cache/filters/" ++ i.Id := by
    have h := Chars.Clean_dir_append ".regolith/cache/filters/".data i.Id.data
      (Or.inr ⟨".regolith/cache/filters".data, rfl⟩) hp
    have hdir : Chars.cleanedDir ".regolith/cache/filters/".data =
        ".regolith/cache/filters/".data := by decide
    rw [hdir] at h
    have hj : Chars.Join [".regolith/cache/filters".data, i.Id.data] =
        ".regolith/cache/filters/".data ++ i.Id.data := by
      have hne : ".regolith/cache/filters".data ≠ [] := by decide
      simp only [Chars.Join, if_neg hne, Chars.joinSlash]
      exact h
    simp only [RemoteFilterDefinition.GetDownloadPath, filepath.Join, List.map, hj]
    rfl
  exact ⟨hpath, by rw [hsame, hId]; exact hpath⟩

/-- Witness for C9, amended: the cached filter `hello`. -/
theorem GetDownloadPath_by_id_witness :
    RemoteFilterDefinition.GetDownloadPath
        { Id := "hello", Url := "github.com/Bedrock-OSS/regolith-filters",
          Version := "1.0.0", VenvSlot := 0 } = ".regolith/cache/filters/" ++ "hello" :=
  ((GetDownloadPath_by_id
    (exampleRemoteFilter "hello" "github.com/someone/filters" false)
    { Id := "hello", Url := "github.com/Bedrock-OSS/regolith-filters",
      Version := "1.0.0", VenvSlot := 0 } rfl).2.2 (by decide)).1

end Regolith
